import Mathlib

/-!
Shallow embedding of the gale CLI (main.go): the data model, byte-size
formatting, release normalization, command-line argument resolution and the
run pipeline, together with theorems checking the specification claims.

Modelling conventions:
* Go slices become Lean lists (a slice produced by make is non-nil in Go, so
  a zero-length asset slice is an empty list, never an absent value).
* Go int and int64 become Int; loop counters and string indices become Nat.
* time.Time values are carried opaquely as Int (nanoseconds); the program
  never inspects them.
* Side effects of the run pipeline are recorded as an explicit action trace,
  and the single background fetch is passed in as its delivered outcome
  (the channel handoff in run blocks until the outcome arrives).
-/

namespace Gale

/-- Version constant from main.go. -/
def version : String := "4.5.0"

/-- AssetNode from main.go: a raw release asset decoded from the API.
    Size is int64 in Go, modelled as Int. -/
structure AssetNode where
  id : String
  name : String
  size : Int
  downloadURL : String
  contentType : String
  deriving DecidableEq

/-- ReleaseAssets from main.go: the asset collection of one release, with the
    total count reported by the API next to the (possibly truncated) node list. -/
structure ReleaseAssets where
  totalCount : Int
  nodes : List AssetNode
  deriving DecidableEq

/-- ReleaseNode from main.go: one raw release decoded from the API. -/
structure ReleaseNode where
  id : String
  name : String
  tagName : String
  publishedAt : Int
  isPrerelease : Bool
  isDraft : Bool
  url : String
  description : String
  releaseAssets : ReleaseAssets
  deriving DecidableEq

/-- NormalizedAsset from main.go. -/
structure NormalizedAsset where
  id : String
  name : String
  size : Int
  sizeFormatted : String
  contentType : String
  downloadURL : String
  deriving DecidableEq

/-- NormalizedRelease from main.go. -/
structure NormalizedRelease where
  id : String
  name : String
  version : String
  publishedAt : Int
  isPrerelease : Bool
  isDraft : Bool
  url : String
  description : String
  downloadCount : Int
  assets : List NormalizedAsset
  deriving DecidableEq

/-- Nearest integer to num / den with ties resolved to the even candidate.
    This is how Go renders a binary floating value at a fixed number of decimal
    digits (fmt %.1f): the exact value is rounded to the nearest representable
    decimal, ties to even. -/
def roundHalfEven (num den : Nat) : Nat :=
  let q := num / den
  let r := num % den
  if 2 * r < den then q
  else if den < 2 * r then q + 1
  else if q % 2 = 0 then q else q + 1

/-- Rendering of bytes / div with exactly one decimal digit, ties to even:
    the semantics of fmt.Sprintf with verb %.1f applied to a binary floating
    value that is exactly bytes / div. formatBytes feeds it the binary64 value
    of its input: the divisor div is a power of two, so the float64 division
    only shifts the exponent and is exact, and Go renders the resulting binary
    value correctly rounded to one decimal, ties to even. -/
def oneDecimal (bytes div : Nat) : String :=
  let n := roundHalfEven (10 * bytes) div
  toString (n / 10) ++ "." ++ toString (n % 10)

/-- The binary64 (float64) value of a non-negative integer, as an exact
    integer: the input correctly rounded to 53 significant bits, ties to the
    even significand. This is the conversion float64(bytes) performs inside
    formatBytes; below 2 to the 53 it is the identity, and no input in the
    int64 range overflows it. -/
def floatOfNat (n : Nat) : Nat :=
  let bits := Nat.log2 n + 1
  if bits ≤ 53 then n
  else
    let ulp := 2 ^ (bits - 53)
    roundHalfEven n ulp * ulp

/-- The unit-letter constant indexed in formatBytes ("KMGTPE"). -/
def unitChars : List Char := ['K', 'M', 'G', 'T', 'P', 'E']

/-- The unit-selection loop of formatBytes:
    for n := bytes / unit; n >= unit; n /= unit getting div *= unit; exp++.
    Returns the final (div, exp). -/
def formatLoop (n div e : Nat) : Nat × Nat :=
  if _h : 1024 ≤ n then formatLoop (n / 1024) (div * 1024) (e + 1) else (div, e)
termination_by n
decreasing_by exact Nat.div_lt_self (by omega) (by omega)

/-- formatBytes from main.go. Negative input never enters the loop because the
    bytes < 1024 comparison catches it, exactly as in the Go code. The divisor
    and exponent come from the integer loop on the original value; the printed
    quotient is float64(bytes) / float64(div), embedded as the binary64 value
    of bytes (floatOfNat) divided exactly by the power-of-two div and rendered
    by oneDecimal. The string indexing of "KMGTPE" uses the loop exponent;
    getD never falls back to its default for in-range exponents (proved
    separately). -/
def formatBytes (bytes : Int) : String :=
  if bytes = 0 then "0 B"
  else if bytes < 1024 then toString bytes ++ " B"
  else
    let b := bytes.toNat
    let p := formatLoop (b / 1024) 1024 0
    oneDecimal (floatOfNat b) p.1 ++ " " ++
      String.singleton (unitChars.getD p.2 'K') ++ "B"

/-- Number of integer divisions by 1024 needed to bring the value below 1024,
    as the specification words the unit selection. -/
def specDivisions (n : Nat) : Nat :=
  if _h : n < 1024 then 0 else specDivisions (n / 1024) + 1
termination_by n
decreasing_by exact Nat.div_lt_self (by omega) (by omega)

/-- Byte formatting as the specification states it: 0 and sub-1024 cases
    verbatim, otherwise the value divided by 1024 ^ d rendered with one decimal
    digit and the unit letter indexed by d - 1, where d counts the divisions
    needed to bring the quotient below 1024. -/
def formatBytesSpec (bytes : Nat) : String :=
  if bytes = 0 then "0 B"
  else if bytes < 1024 then toString bytes ++ " B"
  else
    let d := specDivisions bytes
    oneDecimal bytes (1024 ^ d) ++ " " ++
      String.singleton (unitChars.getD (d - 1) 'K') ++ "B"

/-- The per-asset mapping inside normalizeData. -/
def normalizeAsset (asset : AssetNode) : NormalizedAsset :=
  { id := asset.id
    name := asset.name
    size := asset.size
    sizeFormatted := formatBytes asset.size
    contentType := asset.contentType
    downloadURL := asset.downloadURL }

/-- The per-release body of the loop in normalizeData: the sequential name
    fallback assignments, the asset mapping and the field copies. -/
def normalizeRelease (node : ReleaseNode) : NormalizedRelease :=
  let name1 := if node.name = "" then node.tagName else node.name
  let name2 := if name1 = "" then "Unnamed Release" else name1
  { id := node.id
    name := name2
    version := node.tagName
    publishedAt := node.publishedAt
    isPrerelease := node.isPrerelease
    isDraft := node.isDraft
    url := node.url
    description := node.description
    downloadCount := node.releaseAssets.totalCount
    assets := node.releaseAssets.nodes.map normalizeAsset }

/-- normalizeData from main.go: the indexed loop writing releases[i] from
    nodes[i], one output per input. -/
def normalizeData : List ReleaseNode → List NormalizedRelease
  | [] => []
  | node :: rest => normalizeRelease node :: normalizeData rest

/-- Config from main.go. parseArgs fills it from flags, positionals and the
    GITHUB_TOKEN environment variable (os.Getenv yields the empty string when
    the variable is unset). -/
structure Config where
  owner : String
  repo : String
  count : Int
  output : String
  token : String
  quiet : Bool
  help : Bool
  version : Bool
  deriving DecidableEq

/-- Decimal integer parsing as the flag package uses for int flags
    (strconv.ParseInt with base 0). The base-prefixed, underscored and
    range-checked forms are not exercised by this program and are not
    modelled; a plain optionally signed decimal numeral is. -/
def parseDigits (cs : List Char) : Option Nat :=
  match cs with
  | [] => none
  | _ =>
    cs.foldl
      (fun acc c =>
        acc.bind (fun n => if c.isDigit then some (n * 10 + (c.toNat - 48)) else none))
      (some 0)

/-- Optionally signed decimal integer, the shape strconv.ParseInt accepts for
    the count values this program sees. -/
def parseGoInt (s : String) : Option Int :=
  match s.toList with
  | '-' :: ds => (parseDigits ds).map (fun n => -(n : Int))
  | '+' :: ds => (parseDigits ds).map (fun n => (n : Int))
  | ds => (parseDigits ds).map (fun n => (n : Int))

/-- strconv.ParseBool as used for bool flags given an explicit =value. -/
def parseGoBool (s : String) : Option Bool :=
  if s = "1" ∨ s = "t" ∨ s = "T" ∨ s = "true" ∨ s = "TRUE" ∨ s = "True" then some true
  else if s = "0" ∨ s = "f" ∨ s = "F" ∨ s = "false" ∨ s = "FALSE" ∨ s = "False" then
    some false
  else none

/-- Classification of one command-line token by flag.parseOne: a length-two
    token of minuses terminates flag parsing, a token shorter than two
    characters or not starting with a minus stops flag parsing (it and the
    rest become positionals), a flag name starting with minus or equals is a
    syntax error, otherwise the token carries a flag name after one or two
    minuses. -/
inductive TokenClass where
  | terminator
  | positional
  | badFlag
  | flagToken (nameChars : List Char)
  deriving DecidableEq

/-- classify one token exactly as flag.parseOne does. -/
def classifyToken (s : String) : TokenClass :=
  match s.toList with
  | '-' :: '-' :: [] => .terminator
  | '-' :: '-' :: c :: cs => if c = '-' ∨ c = '=' then .badFlag else .flagToken (c :: cs)
  | '-' :: c :: cs => if c = '=' then .badFlag else .flagToken (c :: cs)
  | _ => .positional

/-- Split a flag token body at the first equals sign: the name and, when an
    equals sign is present, the explicit value (possibly empty). -/
def splitEq : List Char → List Char × Option (List Char)
  | [] => ([], none)
  | '=' :: cs => ([], some cs)
  | c :: cs =>
    let p := splitEq cs
    (c :: p.1, p.2)

/-- The kind of a registered flag: a bool flag (which consumes no following
    token) or a valued flag (which takes =value or the next token), together
    with the Config field update. Mirrors the flag.IntVar, flag.StringVar and
    flag.BoolVar registrations in parseArgs: each long and short name updates
    the same field. -/
inductive FlagKind where
  | boolFlag (upd : Config → Bool → Config)
  | intFlag (upd : Config → Int → Config)
  | strFlag (upd : Config → String → Config)

/-- The flag registration table from parseArgs. Unknown names are errors. -/
def flagKind (name : String) : Option FlagKind :=
  if name = "count" ∨ name = "c" then some (.intFlag fun c n => { c with count := n })
  else if name = "output" ∨ name = "o" then
    some (.strFlag fun c v => { c with output := v })
  else if name = "token" ∨ name = "t" then
    some (.strFlag fun c v => { c with token := v })
  else if name = "quiet" ∨ name = "q" then
    some (.boolFlag fun c b => { c with quiet := b })
  else if name = "help" ∨ name = "h" then
    some (.boolFlag fun c b => { c with help := b })
  else if name = "version" ∨ name = "v" then
    some (.boolFlag fun c b => { c with version := b })
  else none

/-- The flag.Parse loop (flag.parseOne iterated): consume flag tokens from the
    front of the argument list until a terminator, a non-flag token or the end,
    returning the updated Config and remaining positional arguments, or none
    on a usage error (flag.ExitOnError terminates the process). A bool flag
    without =value sets true and consumes nothing further; a valued flag
    without =value consumes the next token and errors when there is none. -/
def flagParse : List String → Config → Option (Config × List String)
  | [], cfg => some (cfg, [])
  | s :: rest, cfg =>
    match classifyToken s with
    | .terminator => some (cfg, rest)
    | .positional => some (cfg, s :: rest)
    | .badFlag => none
    | .flagToken nameChars =>
      let p := splitEq nameChars
      match flagKind (String.mk p.1) with
      | none => none
      | some (.boolFlag upd) =>
        match p.2 with
        | none => flagParse rest (upd cfg true)
        | some v =>
          match parseGoBool (String.mk v) with
          | none => none
          | some b => flagParse rest (upd cfg b)
      | some (.intFlag upd) =>
        match p.2 with
        | some v =>
          match parseGoInt (String.mk v) with
          | none => none
          | some n => flagParse rest (upd cfg n)
        | none =>
          match rest with
          | [] => none
          | v :: rs =>
            match parseGoInt v with
            | none => none
            | some n => flagParse rs (upd cfg n)
      | some (.strFlag upd) =>
        match p.2 with
        | some v => flagParse rest (upd cfg (String.mk v))
        | none =>
          match rest with
          | [] => none
          | v :: rs => flagParse rs (upd cfg v)

/-- parseArgs from main.go: register the flags with their defaults (the token
    default is the environment variable value), run flag.Parse over the
    command-line tokens after the program name, then fill owner and repo from
    the defaults overridden by the first and second positional argument. -/
def parseArgs (argv : List String) (envToken : String) : Option Config :=
  let cfg0 : Config :=
    { owner := ""
      repo := ""
      count := 10
      output := "releases.json"
      token := envToken
      quiet := false
      help := false
      version := false }
  match flagParse argv cfg0 with
  | none => none
  | some (cfg, args) =>
    match args with
    | [] => some { cfg with owner := "Typeflu", repo := "gale" }
    | a0 :: [] => some { cfg with owner := a0, repo := "gale" }
    | a0 :: a1 :: _ => some { cfg with owner := a0, repo := a1 }

/-! Helper lemmas about the byte-formatting loop. -/

/-- The loop exits immediately when the scaled value is below 1024. -/
theorem formatLoop_of_lt (n div e : Nat) (h : n < 1024) :
    formatLoop n div e = (div, e) := by
  rw [formatLoop]; simp [Nat.not_le.2 h]

/-- One loop iteration when the scaled value is at least 1024. -/
theorem formatLoop_of_ge (n div e : Nat) (h : 1024 ≤ n) :
    formatLoop n div e = formatLoop (n / 1024) (div * 1024) (e + 1) := by
  rw [formatLoop]; simp [h]

/-- specDivisions on values already below 1024. -/
theorem specDivisions_of_lt (n : Nat) (h : n < 1024) : specDivisions n = 0 := by
  rw [specDivisions]; simp [h]

/-- specDivisions unfolding on values of at least 1024. -/
theorem specDivisions_of_ge (n : Nat) (h : 1024 ≤ n) :
    specDivisions n = specDivisions (n / 1024) + 1 := by
  rw [specDivisions]; simp [Nat.not_lt.2 h]

/-- Closed form of the formatBytes loop: the divisor accumulates one factor of
    1024 per division still needed, and the exponent counts those divisions. -/
theorem formatLoop_closed (n : Nat) :
    ∀ div e, formatLoop n div e =
      (div * 1024 ^ specDivisions n, e + specDivisions n) := by
  induction n using Nat.strong_induction_on with
  | _ n ih =>
    intro div e
    by_cases h : 1024 ≤ n
    · rw [formatLoop_of_ge n div e h,
        ih (n / 1024) (Nat.div_lt_self (by omega) (by omega)) (div * 1024) (e + 1),
        specDivisions_of_ge n h]
      refine Prod.ext ?_ ?_
      · simp [pow_succ]; ring
      · simp; omega
    · rw [formatLoop_of_lt n div e (by omega), specDivisions_of_lt n (by omega)]
      simp

/-- A bound on the division count from a bound on the input. -/
theorem specDivisions_le (k : Nat) :
    ∀ n, n < 1024 ^ (k + 1) → specDivisions n ≤ k := by
  induction k with
  | zero =>
    intro n h
    rw [specDivisions_of_lt n (by simpa using h)]
  | succ k ih =>
    intro n h
    by_cases hn : n < 1024
    · rw [specDivisions_of_lt n hn]; omega
    · rw [specDivisions_of_ge n (by omega)]
      have hd : n / 1024 < 1024 ^ (k + 1) := by
        rw [Nat.div_lt_iff_lt_mul (by norm_num)]
        calc n < 1024 ^ (k + 2) := h
          _ = 1024 ^ (k + 1) * 1024 := by rw [pow_succ]
      exact Nat.succ_le_succ (ih _ hd)

/-- Auxiliary: normalizeData is the element-wise map of the loop body. -/
theorem normalizeData_eq_map (nodes : List ReleaseNode) :
    normalizeData nodes = nodes.map normalizeRelease := by
  induction nodes with
  | nil => rfl
  | cons n ns ih => simp [normalizeData, ih]

/-- A release node whose API-reported asset total (5) differs from the length
    of the returned asset page (1), as happens when the remote truncates the
    page. -/
def truncatedAssetsNode : ReleaseNode :=
  { id := "r1"
    name := "Big"
    tagName := "v1"
    publishedAt := 0
    isPrerelease := false
    isDraft := false
    url := "u"
    description := ""
    releaseAssets :=
      { totalCount := 5
        nodes := [{ id := "a1", name := "one.zip", size := 10,
                    downloadURL := "d", contentType := "zip" }] } }

/-- C1: normalizeData returns one NormalizedRelease per input node, in order,
    never filtering (the output is the element-wise image of the input list,
    so it has exactly the input length), and every output release carries an
    assets list that is the total (possibly empty, never absent) image of the
    input asset list. -/
theorem c1_normalize_length_order (nodes : List ReleaseNode) :
    (normalizeData nodes).length = nodes.length ∧
    normalizeData nodes = nodes.map normalizeRelease ∧
    ∀ node : ReleaseNode,
      (normalizeRelease node).assets = node.releaseAssets.nodes.map normalizeAsset := by
  refine ⟨?_, normalizeData_eq_map nodes, fun node => rfl⟩
  rw [normalizeData_eq_map nodes, List.length_map]

/-- C2: the normalized name is never empty and follows the fallback chain raw
    name, then tag name, then the literal Unnamed Release. -/
theorem c2_name_fallback (node : ReleaseNode) :
    (normalizeRelease node).name =
      (if node.name ≠ "" then node.name
       else if node.tagName ≠ "" then node.tagName
       else "Unnamed Release") ∧
    (normalizeRelease node).name ≠ "" := by
  unfold normalizeRelease
  by_cases h1 : node.name = "" <;> by_cases h2 : node.tagName = "" <;>
    simp [h1, h2]

/-- C3: downloadCount copies the asset collection totalCount field, not the
    length of the returned asset list; on a node where the two differ (total 5,
    one asset returned) the copied value is 5, not 1. -/
theorem c3_download_count (node : ReleaseNode) :
    (normalizeRelease node).downloadCount = node.releaseAssets.totalCount ∧
    (normalizeRelease truncatedAssetsNode).downloadCount = 5 ∧
    ((normalizeRelease truncatedAssetsNode).assets.length : Int) = 1 ∧
    (normalizeRelease truncatedAssetsNode).downloadCount ≠
      ((normalizeRelease truncatedAssetsNode).assets.length : Int) := by
  exact ⟨rfl, rfl, rfl, by decide⟩

/-- Below 2 to the 53 every integer is exactly representable in binary64, so
    the conversion is the identity. -/
theorem floatOfNat_of_lt (n : Nat) (h : n < 2 ^ 53) : floatOfNat n = n := by
  have hb : Nat.log2 n + 1 ≤ 53 := by
    by_cases h0 : n = 0
    · subst h0
      rw [Nat.log2_eq_log_two, Nat.log_zero_right]
      omega
    · have : Nat.log2 n < 53 := (Nat.log2_lt h0).2 h
      omega
  simp [floatOfNat, hb]

/-- C4 counterexample: at 576517047298765620 (inside int64, above 2 to the 53)
    the program prints the rendering of the double-precision approximation
    576517047298765568, which is 512.0 PB, while the exact value divided by
    1024 to the 5 rendered with one decimal digit is 512.1 PB; the original
    unrestricted claim therefore fails at this input. -/
theorem c4_format_bytes_counterexample :
    formatBytes 576517047298765620 = "512.0 PB" ∧
    formatBytesSpec 576517047298765620 = "512.1 PB" ∧
    formatBytes 576517047298765620 ≠ formatBytesSpec 576517047298765620 := by
  have hlog : Nat.log2 576517047298765620 = 59 := by
    rw [Nat.log2_eq_log_two]
    exact Nat.log_eq_of_pow_le_of_lt_pow (by norm_num) (by norm_num)
  have hfl : floatOfNat 576517047298765620 = 576517047298765568 := by
    rw [floatOfNat, hlog]
    norm_num [roundHalfEven]
  have h1 : formatBytes 576517047298765620 = "512.0 PB" := by
    rw [formatBytes]
    norm_num
    rw [show ((576517047298765620 : Int).toNat) = 576517047298765620 from rfl]
    norm_num [formatLoop_of_ge, formatLoop_of_lt, hfl]
    rfl
  have h2 : formatBytesSpec 576517047298765620 = "512.1 PB" := by
    rw [formatBytesSpec]
    norm_num [specDivisions_of_ge, specDivisions_of_lt]
    rfl
  exact ⟨h1, h2, by rw [h1, h2]; decide⟩

/-- C4 (amended): on inputs below 2 to the 53 — the range where float64
    carries the value exactly — formatBytes agrees with the formatting rule as
    the specification words it (zero, sub-1024, and the divide-by-1024 rule
    with one decimal digit and unit letter indexed by divisions minus one);
    above that range the program renders the double-precision approximation of
    the input instead of the exact value. The two example renderings hold. -/
theorem c4_format_bytes (b : Nat) (h : b < 2 ^ 53) :
    formatBytes (b : Int) = formatBytesSpec b ∧
    formatBytes 1536 = "1.5 KB" ∧
    formatBytes 1610612736 = "1.5 GB" := by
  refine ⟨?_, ?_, ?_⟩
  · by_cases hb0 : b = 0
    · subst hb0; rfl
    · have h1 : ¬((b : Int) = 0) := by exact_mod_cast hb0
      by_cases hb : b < 1024
      · have h2 : (b : Int) < 1024 := by exact_mod_cast hb
        rw [formatBytes, formatBytesSpec, if_neg h1, if_pos h2, if_neg hb0,
          if_pos hb]
        rfl
      · have h2 : ¬((b : Int) < 1024) := by exact_mod_cast hb
        rw [formatBytes, formatBytesSpec, if_neg h1, if_neg h2, if_neg hb0,
          if_neg hb]
        simp only [Int.toNat_natCast]
        rw [floatOfNat_of_lt b h, formatLoop_closed (b / 1024) 1024 0,
          specDivisions_of_ge b (Nat.not_lt.1 hb)]
        simp [pow_succ, Nat.mul_comm]
  · rw [formatBytes]
    norm_num
    rw [show ((1536 : Int).toNat) = 1536 from rfl]
    norm_num [formatLoop_of_lt, floatOfNat_of_lt]
    rfl
  · rw [formatBytes]
    norm_num
    rw [show ((1610612736 : Int).toNat) = 1610612736 from rfl]
    norm_num [formatLoop_of_ge, formatLoop_of_lt, floatOfNat_of_lt]
    rfl

/-- C4 witness: the amended agreement at an in-range input of at least 1024. -/
theorem c4_format_bytes_witness :
    formatBytes ((1610612736 : Nat) : Int) = formatBytesSpec 1610612736 ∧
    formatBytes 1536 = "1.5 KB" ∧
    formatBytes 1610612736 = "1.5 GB" :=
  c4_format_bytes 1610612736 (by decide)

/-- C9: for every input below 2 to the 63 (the int64 range), the unit loop
    performs at most 6 divisions, so the exponent used to index the constant
    KMGTPE is at most 5 and stays inside the string bounds. -/
theorem c9_loop_bound (b : Nat) (h : b < 2 ^ 63) :
    specDivisions b ≤ 6 ∧
    (formatLoop (b / 1024) 1024 0).2 ≤ 5 ∧
    (formatLoop (b / 1024) 1024 0).2 < unitChars.length := by
  have h7 : b < 1024 ^ 7 := by
    calc b < 2 ^ 63 := h
      _ ≤ 1024 ^ 7 := by norm_num
  have h6 : b / 1024 < 1024 ^ 6 := by
    rw [Nat.div_lt_iff_lt_mul (by norm_num)]
    calc b < 1024 ^ 7 := h7
      _ = 1024 ^ 6 * 1024 := by norm_num [pow_succ]
  have hs : specDivisions (b / 1024) ≤ 5 := specDivisions_le 5 (b / 1024) h6
  have he : (formatLoop (b / 1024) 1024 0).2 = specDivisions (b / 1024) := by
    rw [formatLoop_closed (b / 1024) 1024 0]; simp
  refine ⟨specDivisions_le 6 b h7, ?_, ?_⟩
  · rw [he]; exact hs
  · rw [he]
    have : unitChars.length = 6 := rfl
    omega

/-- C9 witness: the loop bound holds at the largest int64 value. -/
theorem c9_loop_bound_witness :
    specDivisions 9223372036854775807 ≤ 6 ∧
    (formatLoop (9223372036854775807 / 1024) 1024 0).2 ≤ 5 ∧
    (formatLoop (9223372036854775807 / 1024) 1024 0).2 < unitChars.length :=
  c9_loop_bound 9223372036854775807 (by decide)

/-- C5: argument resolution with no arguments yields the defaults with the
    token taken from the environment, two positionals set owner and repo with
    everything else at defaults, and the mixed flags-then-positionals line
    sets count, output, quiet, owner and repo. -/
theorem c5_arg_resolution (env : String) :
    parseArgs [] env =
      some { owner := "Typeflu", repo := "gale", count := 10,
             output := "releases.json", token := env, quiet := false,
             help := false, version := false } ∧
    parseArgs ["microsoft", "vscode"] env =
      some { owner := "microsoft", repo := "vscode", count := 10,
             output := "releases.json", token := env, quiet := false,
             help := false, version := false } ∧
    parseArgs ["--count", "20", "-o", "out.json", "-q", "owner", "repo"] env =
      some { owner := "owner", repo := "repo", count := 20,
             output := "out.json", token := env, quiet := true,
             help := false, version := false } :=
  ⟨rfl, rfl, rfl⟩

/-- C6 counterexample: placing the count flag after the two positionals does
    not set count (it stays at the default 10); the flag token and its value
    become extra positionals that are ignored. -/
theorem c6_flags_after_positionals_counterexample :
    parseArgs ["owner", "repo", "--count", "20"] "" =
      some { owner := "owner", repo := "repo", count := 10,
             output := "releases.json", token := "", quiet := false,
             help := false, version := false } ∧
    Option.map Config.count (parseArgs ["owner", "repo", "--count", "20"] "") ≠
      some 20 := by
  exact ⟨rfl, by decide⟩

/-- C6 amended: flag parsing stops at the first non-flag token, so flags are
    recognized only before the positionals; once two positionals have been
    seen, every following token, flag-like or not, is treated as an ignored
    extra positional and leaves every Config field untouched. -/
theorem c6_flags_only_before_positionals (rest : List String) (env : String) :
    parseArgs ("owner" :: "repo" :: rest) env =
      some { owner := "owner", repo := "repo", count := 10,
             output := "releases.json", token := env, quiet := false,
             help := false, version := false } :=
  rfl

/-! The run pipeline. Its observable effects are recorded as an action trace;
the single background fetch is passed in as its delivered outcome, and the
wall-clock timestamp as a string. Path resolution, JSON serialization and the
file write itself can only happen through the writeFile action, so a trace
without writeFile is a run that never touches the output file. -/

/-- GraphQLError from main.go. -/
structure GraphQLError where
  message : String
  deriving DecidableEq

/-- Releases from main.go: the release collection of the repository. -/
structure Releases where
  totalCount : Int
  nodes : List ReleaseNode
  deriving DecidableEq

/-- Repository from main.go. -/
structure Repository where
  releases : Releases
  deriving DecidableEq

/-- GraphQLData from main.go; the repository pointer may be null. -/
structure GraphQLData where
  repository : Option Repository
  deriving DecidableEq

/-- GraphQLResponse from main.go; data may be null and errors may be empty
    (a nil Go slice and an empty one both have length zero). -/
structure GraphQLResponse where
  data : Option GraphQLData
  errors : List GraphQLError
  deriving DecidableEq

/-- The HTTP-level outcome delivered to fetchGraphQL: a transport failure, or
    a response with its status code, raw body and the result of decoding the
    body as a GraphQLResponse. -/
inductive HTTPOutcome where
  | transportError (msg : String)
  | response (status : Nat) (rawBody : String)
      (decoded : Except String GraphQLResponse)

/-- The outcome classification of fetchGraphQL from main.go: transport errors
    wrap the send failure, a status of at least 400 yields the rejection error
    carrying the status code and raw body before any decoding, and otherwise
    the decoded body (or the decode failure) is returned. -/
def fetchGraphQL (out : HTTPOutcome) : Except String GraphQLResponse :=
  match out with
  | .transportError msg =>
    .error ("failed to send request to GitHub API: " ++ msg)
  | .response status rawBody decoded =>
    if 400 ≤ status then
      .error ("GitHub API responded with status " ++ toString status ++ ": "
        ++ rawBody)
    else
      match decoded with
      | .error msg => .error ("failed to decode GitHub API response: " ++ msg)
      | .ok r => .ok r

/-- Metadata from main.go. -/
structure Metadata where
  fetchedAt : String
  fetchedBy : String
  author : String
  url : String
  deriving DecidableEq

/-- RepoInfo from main.go. -/
structure RepoInfo where
  owner : String
  repo : String
  url : String
  totalReleases : Int
  fetchedReleases : Int
  deriving DecidableEq

/-- OutputFile from main.go. -/
structure OutputFile where
  metadata : Metadata
  repository : RepoInfo
  releases : List NormalizedRelease
  deriving DecidableEq

/-- The observable actions of run, in program order. -/
inductive Action where
  | showBanner
  | showHelp
  | printVersion
  | warnNoToken
  | startFetch
  | normalize
  | writeFile (path : String) (contents : OutputFile)
  deriving DecidableEq

/-- The output document assembled by run before writing. -/
def buildOutput (cfg : Config) (now : String) (totalReleases : Int)
    (releases : List NormalizedRelease) : OutputFile :=
  { metadata :=
      { fetchedAt := now
        fetchedBy := "gale v" ++ version
        author := "Saksham Singla (@Typeflu)"
        url := "https://github.com/Typeflu" }
    repository :=
      { owner := cfg.owner
        repo := cfg.repo
        url := "https://github.com/" ++ cfg.owner ++ "/" ++ cfg.repo
        totalReleases := totalReleases
        fetchedReleases := (releases.length : Int) }
    releases := releases }

/-- The actions run performs between the early exits and the fetch handoff:
    the banner unless quiet, the token warning when no token is present, and
    the fetch dispatch. -/
def preFetchActs (cfg : Config) : List Action :=
  (if !cfg.quiet then [Action.showBanner] else []) ++
    (if cfg.token = "" then [Action.warnNoToken] else []) ++
      [Action.startFetch]

/-- run from main.go, as a function of the parsed Config, the fetch outcome
    received over the single-slot channel, and the current UTC timestamp.
    Returns the action trace and the error returned to main (none on
    success). -/
def run (cfg : Config) (fetched : Except String GraphQLResponse)
    (now : String) : List Action × Option String :=
  if cfg.help then ([.showBanner, .showHelp], none)
  else if cfg.version then ([.printVersion], none)
  else
    let acts := preFetchActs cfg
    match fetched with
    | .error e => (acts, some e)
    | .ok result =>
      if 0 < result.errors.length then
        (acts, some ("GraphQL returned errors:\n" ++
          String.join (result.errors.map (fun e => "- " ++ e.message ++ "\n"))))
      else
        match result.data with
        | none => (acts, some "repository not found or access denied")
        | some d =>
          match d.repository with
          | none => (acts, some "repository not found or access denied")
          | some repo =>
            let releases := normalizeData repo.releases.nodes
            let doc := buildOutput cfg now repo.releases.totalCount releases
            (acts ++ [Action.normalize, Action.writeFile cfg.output doc], none)

/-- main from main.go: a run error is reported and the process exits 1,
    otherwise it exits 0. -/
def mainExitCode (cfg : Config) (fetched : Except String GraphQLResponse)
    (now : String) : Nat :=
  match (run cfg fetched now).2 with
  | some _ => 1
  | none => 0

/-- No write action ever occurs among the pre-fetch actions. -/
theorem writeFile_not_mem_preFetchActs (cfg : Config) (p : String)
    (doc : OutputFile) : Action.writeFile p doc ∉ preFetchActs cfg := by
  unfold preFetchActs
  by_cases hq : cfg.quiet <;> by_cases ht : cfg.token = "" <;> simp [hq, ht]

/-- No normalize action ever occurs among the pre-fetch actions. -/
theorem normalize_not_mem_preFetchActs (cfg : Config) :
    Action.normalize ∉ preFetchActs cfg := by
  unfold preFetchActs
  by_cases hq : cfg.quiet <;> by_cases ht : cfg.token = "" <;> simp [hq, ht]

/-- A fetch error makes run return that error right after the fetch handoff. -/
theorem run_of_fetch_error (cfg : Config) (e now : String)
    (hh : cfg.help = false) (hv : cfg.version = false) :
    run cfg (.error e) now = (preFetchActs cfg, some e) := by
  simp [run, hh, hv]

/-- A response with a non-empty error list makes run return the query-errors
    failure listing each message. -/
theorem run_of_query_errors (cfg : Config) (resp : GraphQLResponse)
    (now : String) (hne : resp.errors ≠ []) (hh : cfg.help = false)
    (hv : cfg.version = false) :
    run cfg (.ok resp) now =
      (preFetchActs cfg,
        some ("GraphQL returned errors:\n" ++
          String.join (resp.errors.map (fun e => "- " ++ e.message ++ "\n")))) := by
  have hl : 0 < resp.errors.length := List.length_pos.2 hne
  simp [run, hh, hv, hl]

/-- A sample configuration with help and version unset (the parse defaults). -/
def sampleCfg : Config :=
  { owner := "Typeflu"
    repo := "gale"
    count := 10
    output := "releases.json"
    token := ""
    quiet := false
    help := false
    version := false }

/-- The sample configuration with both help and version requested. -/
def helpVersionCfg : Config :=
  { sampleCfg with help := true, version := true }

/-- C7: a response with status at least 400 is classified by fetchGraphQL as
    the rejection error carrying the status code and the raw body, run then
    returns exactly that error, its trace contains no file write (the write is
    never reached, so the output file is neither created nor modified), and
    the process exits non-zero. -/
theorem c7_http_rejection (cfg : Config) (status : Nat) (rawBody : String)
    (decoded : Except String GraphQLResponse) (now : String)
    (hs : 400 ≤ status) (hh : cfg.help = false) (hv : cfg.version = false) :
    fetchGraphQL (.response status rawBody decoded) =
      .error ("GitHub API responded with status " ++ toString status ++ ": "
        ++ rawBody) ∧
    (run cfg (fetchGraphQL (.response status rawBody decoded)) now).2 =
      some ("GitHub API responded with status " ++ toString status ++ ": "
        ++ rawBody) ∧
    (∀ p doc, Action.writeFile p doc ∉
      (run cfg (fetchGraphQL (.response status rawBody decoded)) now).1) ∧
    mainExitCode cfg (fetchGraphQL (.response status rawBody decoded)) now
      = 1 := by
  have hf : fetchGraphQL (.response status rawBody decoded) =
      .error ("GitHub API responded with status " ++ toString status ++ ": "
        ++ rawBody) := by
    simp [fetchGraphQL, hs]
  refine ⟨hf, ?_, ?_, ?_⟩
  · rw [hf, run_of_fetch_error cfg _ now hh hv]
  · intro p doc
    rw [hf, run_of_fetch_error cfg _ now hh hv]
    exact writeFile_not_mem_preFetchActs cfg p doc
  · rw [mainExitCode, hf, run_of_fetch_error cfg _ now hh hv]

/-- C7 witness: a 404 rejection at the default configuration. -/
theorem c7_http_rejection_witness :
    fetchGraphQL (.response 404 "Not Found" (Except.error "unused")) =
      .error ("GitHub API responded with status " ++ toString 404 ++ ": "
        ++ "Not Found") ∧
    (run sampleCfg
        (fetchGraphQL (.response 404 "Not Found" (Except.error "unused")))
        "2026-01-01T00:00:00Z").2 =
      some ("GitHub API responded with status " ++ toString 404 ++ ": "
        ++ "Not Found") ∧
    (∀ p doc, Action.writeFile p doc ∉
      (run sampleCfg
        (fetchGraphQL (.response 404 "Not Found" (Except.error "unused")))
        "2026-01-01T00:00:00Z").1) ∧
    mainExitCode sampleCfg
      (fetchGraphQL (.response 404 "Not Found" (Except.error "unused")))
      "2026-01-01T00:00:00Z" = 1 :=
  c7_http_rejection sampleCfg 404 "Not Found" (Except.error "unused")
    "2026-01-01T00:00:00Z" (by decide) rfl rfl

/-- C8: a 200 response whose decoded body carries a non-empty errors list
    makes run abort with the query-errors failure whose message lists every
    error message, with no normalization and no file write, and the process
    exits non-zero. -/
theorem c8_query_errors (cfg : Config) (resp : GraphQLResponse) (now : String)
    (hne : resp.errors ≠ []) (hh : cfg.help = false)
    (hv : cfg.version = false) :
    (run cfg (.ok resp) now).2 =
      some ("GraphQL returned errors:\n" ++
        String.join (resp.errors.map (fun e => "- " ++ e.message ++ "\n"))) ∧
    Action.normalize ∉ (run cfg (.ok resp) now).1 ∧
    (∀ p doc, Action.writeFile p doc ∉ (run cfg (.ok resp) now).1) ∧
    mainExitCode cfg (.ok resp) now = 1 := by
  have hr := run_of_query_errors cfg resp now hne hh hv
  refine ⟨?_, ?_, ?_, ?_⟩
  · rw [hr]
  · rw [hr]; exact normalize_not_mem_preFetchActs cfg
  · intro p doc; rw [hr]; exact writeFile_not_mem_preFetchActs cfg p doc
  · rw [mainExitCode, hr]

/-- C8 witness: a single Bad credentials error at the default configuration. -/
theorem c8_query_errors_witness :
    (run sampleCfg
        (.ok { data := none, errors := [{ message := "Bad credentials" }] })
        "2026-01-01T00:00:00Z").2 =
      some ("GraphQL returned errors:\n" ++
        String.join
          (([{ message := "Bad credentials" }] : List GraphQLError).map
            (fun e => "- " ++ e.message ++ "\n"))) ∧
    Action.normalize ∉
      (run sampleCfg
        (.ok { data := none, errors := [{ message := "Bad credentials" }] })
        "2026-01-01T00:00:00Z").1 ∧
    (∀ p doc, Action.writeFile p doc ∉
      (run sampleCfg
        (.ok { data := none, errors := [{ message := "Bad credentials" }] })
        "2026-01-01T00:00:00Z").1) ∧
    mainExitCode sampleCfg
      (.ok { data := none, errors := [{ message := "Bad credentials" }] })
      "2026-01-01T00:00:00Z" = 1 :=
  c8_query_errors sampleCfg
    { data := none, errors := [{ message := "Bad credentials" }] }
    "2026-01-01T00:00:00Z" (by decide) rfl rfl

/-- C10: when help and version are both requested, help wins: run shows the
    banner and the usage text only, succeeds (exit 0), and neither prints the
    version string nor fetches nor writes any file. -/
theorem c10_help_precedence (cfg : Config)
    (fetched : Except String GraphQLResponse) (now : String)
    (hh : cfg.help = true) (_hv : cfg.version = true) :
    run cfg fetched now = ([Action.showBanner, Action.showHelp], none) ∧
    mainExitCode cfg fetched now = 0 ∧
    Action.printVersion ∉ (run cfg fetched now).1 ∧
    Action.startFetch ∉ (run cfg fetched now).1 ∧
    (∀ p doc, Action.writeFile p doc ∉ (run cfg fetched now).1) := by
  have hr : run cfg fetched now = ([Action.showBanner, Action.showHelp], none) := by
    simp [run, hh]
  refine ⟨hr, ?_, ?_, ?_, ?_⟩
  · rw [mainExitCode, hr]
  · rw [hr]; decide
  · rw [hr]; decide
  · intro p doc; rw [hr]; simp

/-- C10 witness: help precedence at the configuration requesting both. -/
theorem c10_help_precedence_witness :
    run helpVersionCfg (Except.error "unused") "2026-01-01T00:00:00Z" =
      ([Action.showBanner, Action.showHelp], none) ∧
    mainExitCode helpVersionCfg (Except.error "unused")
      "2026-01-01T00:00:00Z" = 0 ∧
    Action.printVersion ∉
      (run helpVersionCfg (Except.error "unused") "2026-01-01T00:00:00Z").1 ∧
    Action.startFetch ∉
      (run helpVersionCfg (Except.error "unused") "2026-01-01T00:00:00Z").1 ∧
    (∀ p doc, Action.writeFile p doc ∉
      (run helpVersionCfg (Except.error "unused") "2026-01-01T00:00:00Z").1) :=
  c10_help_precedence helpVersionCfg (Except.error "unused")
    "2026-01-01T00:00:00Z" rfl rfl

end Gale
